import Mathlib

/-!
Verification development for the native-function bridge of the
endless-move-framework: the BCS serialization natives
(`native_to_bytes`, `native_constant_serialized_size`, helper
`compute_constant_size` from `move-stdlib/src/natives/bcs.rs`) and the
native dispatch table builder (`all_natives` from `src/natives/mod.rs`).

The Rust code is shallowly embedded: `MoveTypeLayout` / `MoveStructLayout`
mirror the `move_core_types::value` enums used by the code, the natives are
modelled as pure functions over an abstract context supplying the host-VM
capabilities (`type_to_type_layout`, `read_ref`, `simple_serialize`) and an
explicit gas meter, and Rust panics (`unwrap` on `None`) are a distinguished
outcome of the run, separate from returned errors.
-/

namespace Bcs

/-- Field layout of a decorated struct layout: a field name together with the
field's type layout (`move_core_types::value::MoveFieldLayout`). -/
structure FieldTag where
  name : String
deriving Repr, DecidableEq

mutual

/-- Embedding of `move_core_types::value::MoveTypeLayout` as used by
`bcs.rs`: primitive scalars, `Address`, `Signer`, `Vector`, `Struct`,
`Native(tag, inner)` (the wrapper tag is abstracted to a `Nat`) and the
endless-specific `Auth`. -/
inductive MoveTypeLayout where
  | Bool : MoveTypeLayout
  | U8 : MoveTypeLayout
  | U16 : MoveTypeLayout
  | U32 : MoveTypeLayout
  | U64 : MoveTypeLayout
  | U128 : MoveTypeLayout
  | U256 : MoveTypeLayout
  | Address : MoveTypeLayout
  | Signer : MoveTypeLayout
  | Vector : MoveTypeLayout → MoveTypeLayout
  | Struct : MoveStructLayout → MoveTypeLayout
  | Native : Nat → MoveTypeLayout → MoveTypeLayout
  | Auth : MoveTypeLayout

/-- Embedding of `move_core_types::value::MoveStructLayout`: the
minimally-decorated `Runtime` variant (ordered field layouts only), and the
decorated variants `WithFields` (field names attached) and `WithTypes`
(a struct tag, abstracted to a `Nat`, plus named fields). -/
inductive MoveStructLayout where
  | Runtime : List MoveTypeLayout → MoveStructLayout
  | WithFields : List (FieldTag × MoveTypeLayout) → MoveStructLayout
  | WithTypes : Nat → List (FieldTag × MoveTypeLayout) → MoveStructLayout

end

mutual

/-- Embedding of `compute_constant_size` (bcs.rs lines 28-59): returns
`some size` when every value of the layout serializes to exactly `size`
bytes, `none` otherwise.  Primitives map to their fixed widths, `Vector`
is never constant-size, only the `Runtime` struct variant is analyzable
(summing the fields, short-circuiting on the first non-constant field),
and `Native` delegates to its inner layout. -/
def compute_constant_size : MoveTypeLayout → Option Nat
  | .Bool => some 1
  | .U8 => some 1
  | .U16 => some 2
  | .U32 => some 4
  | .U64 => some 8
  | .U128 => some 16
  | .U256 => some 32
  | .Address => some 32
  | .Signer => some 32
  | .Vector _ => none
  | .Struct (.Runtime fields) => compute_constant_size_fields fields
  | .Struct (.WithFields _) => none
  | .Struct (.WithTypes _ _) => none
  | .Native _ inner => compute_constant_size inner
  | .Auth => some 32

/-- The `for field_layout in fields` accumulation loop inside
`compute_constant_size` (bcs.rs lines 44-51): sums the constant sizes of
the field layouts, returning `none` as soon as one field has none. -/
def compute_constant_size_fields : List MoveTypeLayout → Option Nat
  | [] => some 0
  | f :: rest =>
    match compute_constant_size f with
    | some size =>
      match compute_constant_size_fields rest with
      | some total => some (size + total)
      | none => none
    | none => none

end

/-- Gas parameters used by the natives in bcs.rs (from
`endless_gas_schedule::gas_params::natives::move_stdlib`): the fixed failure
fee `BCS_TO_BYTES_FAILURE` and the per-byte success rate
`BCS_TO_BYTES_PER_BYTE_SERIALIZED`, as abstract non-negative amounts. -/
structure GasParams where
  bcs_to_bytes_failure : Nat
  bcs_to_bytes_per_byte_serialized : Nat

/-- `SafeNativeError` as used by the natives: a typed abort with a status
code, an out-of-gas propagation from a failed charge, and the invariant
violation used by `safely_pop_arg!` / propagated `PartialVMError`s. -/
inductive SafeNativeError where
  | Abort : Nat → SafeNativeError
  | OutOfGas : SafeNativeError
  | InvariantViolation : SafeNativeError
deriving Repr, DecidableEq

/-- Outcome of running a native function: a returned value together with the
total gas charged by successful `charge` calls, a returned `SafeNativeError`
together with the gas charged before the error, or a Rust panic (`unwrap` on
an empty `Vec`).  A panic is distinguished from every returned error. -/
inductive RunResult (α : Type) where
  | ok : α → Nat → RunResult α
  | err : SafeNativeError → Nat → RunResult α
  | panicked : RunResult α
deriving Repr, DecidableEq

/-- `true` exactly on the panic outcome. -/
def RunResult.isPanicked : RunResult α → Bool
  | .panicked => true
  | _ => false

/-- `NFE_BCS_SERIALIZATION_FAILURE` from
`move_core_types::vm_status::sub_status` (external constant, value 0x1C5). -/
def NFE_BCS_SERIALIZATION_FAILURE : Nat := 0x1C5

/-- The host capabilities consumed by the natives, as abstract functions
(spec section 6): type arguments, references and values are identified by
opaque `Nat` ids; `type_to_type_layout` and `read_ref` model the fallible
host calls (`Err` as `none`); `simple_serialize` is the canonical-encoding
primitive returning the byte string (bytes as `Nat`s) or `none`. -/
structure NativeContext where
  type_to_type_layout : Nat → Option MoveTypeLayout
  read_ref : Nat → Option Nat
  simple_serialize : Nat → MoveTypeLayout → Option (List Nat)

/-- An argument popped off the operand stack: either a `Reference` or some
non-reference value (which `safely_pop_arg!(args, Reference)` rejects). -/
inductive MoveArg where
  | ref : Nat → MoveArg
  | nonref : Nat → MoveArg
deriving Repr, DecidableEq

/-- `context.charge(cost)`: succeeds with the new accumulated total when the
budget covers it, fails (out of gas) otherwise. -/
def charge (budget used cost : Nat) : Option Nat :=
  if used + cost ≤ budget then some (used + cost) else none

/-- Embedding of `native_to_bytes` (bcs.rs lines 74-112).  Mirrors the Rust
control flow step by step: `safely_pop_arg!(args, Reference)` (pops the back
of the arg deque, invariant violation when missing or not a reference),
`ty_args.pop().unwrap()` (panics when empty), `type_to_type_layout` failure
charges `BCS_TO_BYTES_FAILURE` and aborts with
`NFE_BCS_SERIALIZATION_FAILURE`, `read_ref` failure propagates,
`simple_serialize` failure charges `BCS_TO_BYTES_FAILURE` and aborts with
the same code, and success charges `BCS_TO_BYTES_PER_BYTE_SERIALIZED`
times the serialized length and returns the byte vector. -/
def native_to_bytes (p : GasParams) (ctx : NativeContext) (budget : Nat)
    (ty_args : List Nat) (args : List MoveArg) : RunResult (List (List Nat)) :=
  match args.getLast? with
  | none => .err .InvariantViolation 0
  | some (.nonref _) => .err .InvariantViolation 0
  | some (.ref r) =>
    match ty_args.getLast? with
    | none => .panicked
    | some arg_type =>
      match ctx.type_to_type_layout arg_type with
      | none =>
        match charge budget 0 p.bcs_to_bytes_failure with
        | none => .err .OutOfGas 0
        | some used => .err (.Abort NFE_BCS_SERIALIZATION_FAILURE) used
      | some layout =>
        match ctx.read_ref r with
        | none => .err .InvariantViolation 0
        | some val =>
          match ctx.simple_serialize val layout with
          | none =>
            match charge budget 0 p.bcs_to_bytes_failure with
            | none => .err .OutOfGas 0
            | some used => .err (.Abort NFE_BCS_SERIALIZATION_FAILURE) used
          | some serialized_value =>
            match charge budget 0
                (p.bcs_to_bytes_per_byte_serialized * serialized_value.length) with
            | none => .err .OutOfGas 0
            | some used => .ok [serialized_value] used

/-- The Move `Option<u64>` value returned by `native_constant_serialized_size`:
`Value::struct_(Struct::pack(vec![Value::vector_u64(...)]))`, modelled by the
contents of the inner vector (`[]` for `None`, `[size]` for `Some(size)`). -/
def option_u64 : Option Nat → List Nat
  | none => []
  | some size => [size]

/-- Embedding of `native_constant_serialized_size` (bcs.rs lines 122-164):
charge the flat fee `BCS_TO_BYTES_FAILURE` up front, pop the type argument
(`unwrap` panics when absent), return the `None` value when layout
resolution fails, otherwise return `compute_constant_size` of the layout
as a Move `Option<u64>`.  No path aborts. -/
def native_constant_serialized_size (p : GasParams) (ctx : NativeContext)
    (budget : Nat) (ty_args : List Nat) (_args : List MoveArg) :
    RunResult (List (List Nat)) :=
  match charge budget 0 p.bcs_to_bytes_failure with
  | none => .err .OutOfGas 0
  | some used =>
    match ty_args.getLast? with
    | none => .panicked
    | some arg_type =>
      match ctx.type_to_type_layout arg_type with
      | none => .ok [option_u64 none] used
      | some layout =>
        match compute_constant_size layout with
        | some size => .ok [option_u64 (some size)] used
        | none => .ok [option_u64 none] used

mutual

/-- `true` when the layout tree contains a `Vector` variant at any depth,
including inside decorated struct variants and under `Native` wrappers. -/
def layout_contains_vector : MoveTypeLayout → Bool
  | .Vector _ => true
  | .Struct s => struct_contains_vector s
  | .Native _ inner => layout_contains_vector inner
  | _ => false

/-- `layout_contains_vector` on a struct layout's field layouts. -/
def struct_contains_vector : MoveStructLayout → Bool
  | .Runtime fields => fields_contain_vector fields
  | .WithFields fields => named_fields_contain_vector fields
  | .WithTypes _ fields => named_fields_contain_vector fields

/-- `layout_contains_vector` over a list of field layouts. -/
def fields_contain_vector : List MoveTypeLayout → Bool
  | [] => false
  | f :: rest => layout_contains_vector f || fields_contain_vector rest

/-- `layout_contains_vector` over a list of named field layouts. -/
def named_fields_contain_vector : List (FieldTag × MoveTypeLayout) → Bool
  | [] => false
  | f :: rest => layout_contains_vector f.2 || named_fields_contain_vector rest

end

mutual

/-- Height of a layout tree along the branches `compute_constant_size`
recurses into; used to bound the fuel needed by the fuel-indexed variant. -/
def layout_height : MoveTypeLayout → Nat
  | .Vector inner => layout_height inner + 1
  | .Struct (.Runtime fields) => fields_height fields + 1
  | .Struct (.WithFields _) => 1
  | .Struct (.WithTypes _ _) => 1
  | .Native _ inner => layout_height inner + 1
  | _ => 1

/-- Maximum `layout_height` over a list of field layouts. -/
def fields_height : List MoveTypeLayout → Nat
  | [] => 0
  | f :: rest => max (layout_height f) (fields_height rest)

end

mutual

/-- Fuel-indexed variant of `compute_constant_size`: each recursive descent
into a subtree (a runtime-struct field or the inner layout of a `Native`
wrapper) consumes one unit of fuel; `none` means the fuel ran out before the
recursion finished, `some r` means the recursion finished with result `r`. -/
def compute_constant_size_fuel : Nat → MoveTypeLayout → Option (Option Nat)
  | 0, _ => none
  | _ + 1, .Bool => some (some 1)
  | _ + 1, .U8 => some (some 1)
  | _ + 1, .U16 => some (some 2)
  | _ + 1, .U32 => some (some 4)
  | _ + 1, .U64 => some (some 8)
  | _ + 1, .U128 => some (some 16)
  | _ + 1, .U256 => some (some 32)
  | _ + 1, .Address => some (some 32)
  | _ + 1, .Signer => some (some 32)
  | _ + 1, .Vector _ => some none
  | fuel + 1, .Struct (.Runtime fields) => compute_constant_size_fields_fuel fuel fields
  | _ + 1, .Struct (.WithFields _) => some none
  | _ + 1, .Struct (.WithTypes _ _) => some none
  | fuel + 1, .Native _ inner => compute_constant_size_fuel fuel inner
  | _ + 1, .Auth => some (some 32)

/-- Fuel-indexed variant of the field-summing loop: iterating over the list
consumes no fuel (it is a loop in the source, not a recursive call), only
the per-field descent does. -/
def compute_constant_size_fields_fuel : Nat → List MoveTypeLayout → Option (Option Nat)
  | _, [] => some (some 0)
  | fuel, f :: rest =>
    match compute_constant_size_fuel fuel f with
    | none => none
    | some none => some none
    | some (some size) =>
      match compute_constant_size_fields_fuel fuel rest with
      | none => none
      | some none => some none
      | some (some total) => some (some (size + total))

end

/-- Fixed byte width of the primitive layouts as the spec lists them
(`Bool`/`U8` 1, `U16` 2, `U32` 4, `U64` 8, `U128` 16, `U256` 32, `Address`,
`Signer` and the `Auth` descriptor 32); `none` on every composite layout. -/
def primitive_width : MoveTypeLayout → Option Nat
  | .Bool => some 1
  | .U8 => some 1
  | .U16 => some 2
  | .U32 => some 4
  | .U64 => some 8
  | .U128 => some 16
  | .U256 => some 32
  | .Address => some 32
  | .Signer => some 32
  | .Auth => some 32
  | _ => none

/-- A host context on which layout resolution fails for every type argument
(an unresolvable type), used to exercise the failure paths. -/
def ctx_unresolvable : NativeContext := ⟨fun _ => none, fun _ => none, fun _ _ => none⟩

/-- Little-endian 8-byte encoding of a `u64` value, the canonical encoding
the external serializer produces for `U64` (spec: length-prefix-free fixed
width, little-endian). -/
def le_u64_bytes (v : Nat) : List Nat :=
  [v % 256, v / 2 ^ 8 % 256, v / 2 ^ 16 % 256, v / 2 ^ 24 % 256,
   v / 2 ^ 32 % 256, v / 2 ^ 40 % 256, v / 2 ^ 48 % 256, v / 2 ^ 56 % 256]

/-- A host context for the `to_bytes<u64>(&42)` scenario: the type argument
resolves to the `U64` layout, the reference dereferences to the value 42,
and the serializer produces the little-endian 8-byte encoding. -/
def ctx_u64 : NativeContext :=
  ⟨fun _ => some .U64, fun _ => some 42, fun v _ => some (le_u64_bytes v)⟩

end Bcs

namespace Natives

/-- The module labels passed to the `add_natives_from_module!` registration
calls in `all_natives` (src/natives/mod.rs lines 55-92), in source order.
Two labels reuse another module's `make_all` ("genesis" reuses
`create_signer`, "from_bcs" reuses `util`), but the labels themselves are
all distinct. -/
def module_labels : List String :=
  ["account", "create_signer", "ed25519", "crypto_algebra", "genesis",
   "multi_ed25519", "bls12381", "secp256k1", "endless_hash", "ristretto255",
   "type_info", "util", "from_bcs", "randomness", "ristretto255_bulletproofs",
   "transaction_context", "code", "event", "state_storage", "aggregator",
   "aggregator_factory", "aggregator_v2", "object", "debug", "string_utils",
   "consensus_config", "poly_commit_ipa", "poly_commit_fk20"]

/-- Embedding of `all_natives` (src/natives/mod.rs lines 41-95): each
registration call pairs its module label with the (function-name, function)
entries contributed by that module's `make_all(builder)` — the groups are
host-supplied and passed here positionally, implementations abstracted to
`Nat` ids — and the accumulator collects `(label, func_name, func)` triples
in order. -/
def all_natives (groups : List (List (String × Nat))) :
    List (String × String × Nat) :=
  (module_labels.zip groups).flatMap
    (fun g => g.2.map (fun p => (g.1, p.1, p.2)))

/-- The (module-name, function-name) dispatch key of a table entry. -/
def entry_key (e : String × String × Nat) : String × String := (e.1, e.2.1)

end Natives

namespace Bcs

mutual

/-- Helper for C4: a layout containing a `Vector` anywhere has no constant
size.  Mutual induction with the field-list case. -/
theorem layout_contains_vector_none : ∀ (l : MoveTypeLayout),
    layout_contains_vector l = true → compute_constant_size l = none
  | .Vector _, _ => rfl
  | .Struct (.Runtime fields), h => by
      have hf := fields_contain_vector_none fields
        (by simpa [layout_contains_vector, struct_contains_vector] using h)
      simpa [compute_constant_size] using hf
  | .Struct (.WithFields _), _ => rfl
  | .Struct (.WithTypes _ _), _ => rfl
  | .Native _ inner, h => by
      have hi := layout_contains_vector_none inner
        (by simpa [layout_contains_vector] using h)
      simpa [compute_constant_size] using hi
  | .Bool, h => by simp [layout_contains_vector] at h
  | .U8, h => by simp [layout_contains_vector] at h
  | .U16, h => by simp [layout_contains_vector] at h
  | .U32, h => by simp [layout_contains_vector] at h
  | .U64, h => by simp [layout_contains_vector] at h
  | .U128, h => by simp [layout_contains_vector] at h
  | .U256, h => by simp [layout_contains_vector] at h
  | .Address, h => by simp [layout_contains_vector] at h
  | .Signer, h => by simp [layout_contains_vector] at h
  | .Auth, h => by simp [layout_contains_vector] at h

/-- Helper for C4: a field list containing a `Vector` anywhere makes the
field sum return `none`. -/
theorem fields_contain_vector_none : ∀ (fs : List MoveTypeLayout),
    fields_contain_vector fs = true → compute_constant_size_fields fs = none
  | [], h => by simp [fields_contain_vector] at h
  | f :: rest, h => by
      rcases Bool.or_eq_true_iff.mp (by simpa [fields_contain_vector] using h) with hc | hc
      · have := layout_contains_vector_none f hc
        simp [compute_constant_size_fields, this]
      · have := fields_contain_vector_none rest hc
        simp [compute_constant_size_fields, this]
        cases compute_constant_size f <;> simp

end

mutual

/-- Helper for C10: with fuel at least the layout height, the fuel-indexed
analyzer finishes and agrees with `compute_constant_size`. -/
theorem fuel_sound : ∀ (fuel : Nat) (l : MoveTypeLayout), layout_height l ≤ fuel →
    compute_constant_size_fuel fuel l = some (compute_constant_size l)
  | 0, l, h => by
      cases l with
      | Vector inner => simp [layout_height] at h
      | Struct s => cases s <;> simp [layout_height] at h
      | Native t inner => simp [layout_height] at h
      | _ => simp [layout_height] at h
  | fuel + 1, l, h => by
      cases l with
      | Vector inner => rfl
      | Struct s =>
        cases s with
        | Runtime fields =>
          have hh : fields_height fields ≤ fuel := by
            have := h; simp [layout_height] at this; omega
          have := fields_fuel_sound fuel fields hh
          simp [compute_constant_size_fuel, compute_constant_size, this]
        | WithFields fields => rfl
        | WithTypes t fields => rfl
      | Native t inner =>
        have hh : layout_height inner ≤ fuel := by
          have := h; simp [layout_height] at this; omega
        have := fuel_sound fuel inner hh
        simp [compute_constant_size_fuel, compute_constant_size, this]
      | _ => rfl

/-- Helper for C10: field-list version of `fuel_sound`. -/
theorem fields_fuel_sound : ∀ (fuel : Nat) (fs : List MoveTypeLayout),
    fields_height fs ≤ fuel →
    compute_constant_size_fields_fuel fuel fs = some (compute_constant_size_fields fs)
  | _, [], _ => rfl
  | fuel, f :: rest, h => by
      have h1 : layout_height f ≤ fuel := by
        have := h; simp [fields_height] at this; omega
      have h2 : fields_height rest ≤ fuel := by
        have := h; simp [fields_height] at this; omega
      have e1 := fuel_sound fuel f h1
      have e2 := fields_fuel_sound fuel rest h2
      simp [compute_constant_size_fields_fuel, compute_constant_size_fields, e1, e2]
      cases compute_constant_size f <;> cases compute_constant_size_fields rest <;> simp

end

/-- Helper for C3: `compute_constant_size` agrees with the spec's primitive
width table on every primitive layout. -/
theorem prim_agree : ∀ (l : MoveTypeLayout) (w : Nat), primitive_width l = some w →
    compute_constant_size l = some w := by
  intro l w h
  cases l <;> simp [primitive_width] at h <;> simp [compute_constant_size, h]

/-- Helper for C3: when every field is a fixed-width primitive, the field
sum is the sum of the primitive widths in declaration order. -/
theorem fields_sum : ∀ (fs : List MoveTypeLayout),
    (∀ f ∈ fs, (primitive_width f).isSome) →
    compute_constant_size_fields fs =
      some ((fs.map (fun f => (primitive_width f).getD 0)).sum) := by
  intro fs h
  induction fs with
  | nil => rfl
  | cons f rest ih =>
    have hf : (primitive_width f).isSome := h f (by simp)
    obtain ⟨w, hw⟩ := Option.isSome_iff_exists.mp hf
    have hcf := prim_agree f w hw
    have hrest := ih (fun g hg => h g (by simp [hg]))
    simp [compute_constant_size_fields, hcf, hrest, hw]

/-- C1: whenever `to_bytes` fails — layout resolution fails, or the layout
resolves, the reference reads, and canonical encoding fails — the operation
charges exactly the one fixed failure fee `BCS_TO_BYTES_FAILURE` (the same
constant for both failure kinds, never the per-byte success charge) and
returns a typed abort with the same status code
`NFE_BCS_SERIALIZATION_FAILURE` in both cases, so the two failure kinds are
indistinguishable by status code. -/
theorem to_bytes_failure_charges_exactly_failure_fee
    (p : GasParams) (ctx : NativeContext) (budget ty r : Nat)
    (hb : p.bcs_to_bytes_failure ≤ budget)
    (hfail : ctx.type_to_type_layout ty = none ∨
      ∃ layout val, ctx.type_to_type_layout ty = some layout ∧
        ctx.read_ref r = some val ∧ ctx.simple_serialize val layout = none) :
    native_to_bytes p ctx budget [ty] [.ref r] =
      .err (.Abort NFE_BCS_SERIALIZATION_FAILURE) p.bcs_to_bytes_failure := by
  rcases hfail with h | ⟨layout, val, h1, h2, h3⟩
  · simp [native_to_bytes, h, charge, hb]
  · simp [native_to_bytes, h1, h2, h3, charge, hb]

/-- Witness for C1 at a concrete unresolvable type. -/
theorem to_bytes_failure_charges_exactly_failure_fee_witness :
    (5 : Nat) ≤ 10 ∧
    native_to_bytes ⟨5, 3⟩ ctx_unresolvable 10 [0] [.ref 0] =
      .err (.Abort NFE_BCS_SERIALIZATION_FAILURE) 5 :=
  ⟨by decide,
    to_bytes_failure_charges_exactly_failure_fee ⟨5, 3⟩ ctx_unresolvable 10 0 0
      (by decide) (Or.inl rfl)⟩

/-- C2 (code evaluation at the failing input): on the success path of
`to_bytes<u64>(&42)` the code returns the 8-byte little-endian encoding of
42 but charges only `8 * per_byte_rate` (here rate 3, so 24 units) — no
layout-resolution or value-serialization phase cost is charged, contrary to
the claim and to the function's own doc comment; with a zero per-byte rate
the success path charges zero, below any base fee. -/
theorem to_bytes_success_charges_only_per_byte_fee :
    native_to_bytes ⟨5, 3⟩ ctx_u64 1000 [0] [.ref 0] =
      .ok [[42, 0, 0, 0, 0, 0, 0, 0]] (3 * 8) ∧
    native_to_bytes ⟨5, 0⟩ ctx_u64 1000 [0] [.ref 0] =
      .ok [[42, 0, 0, 0, 0, 0, 0, 0]] 0 := by
  constructor <;> rfl

/-- C3: the analyzer maps every primitive layout to its fixed byte width
(Bool/U8 to 1, U16 to 2, U32 to 4, U64 to 8, U128 to 16, U256 to 32,
Address/Signer/Auth to 32), every runtime struct composed solely of
fixed-width primitives to the sum of the field widths in declaration order,
and in particular the runtime struct {u8, u64, u8} to `some 10`. -/
theorem constant_size_primitive_widths_and_runtime_struct_sum :
    (∀ (l : MoveTypeLayout) (w : Nat), primitive_width l = some w →
      compute_constant_size l = some w) ∧
    (∀ fs : List MoveTypeLayout, (∀ f ∈ fs, (primitive_width f).isSome) →
      compute_constant_size (.Struct (.Runtime fs)) =
        some ((fs.map (fun f => (primitive_width f).getD 0)).sum)) ∧
    compute_constant_size (.Struct (.Runtime [.U8, .U64, .U8])) = some 10 := by
  refine ⟨prim_agree, ?_, by decide⟩
  intro fs h
  have := fields_sum fs h
  simpa [compute_constant_size] using this

/-- Witness for C3 at the runtime struct {u8, u64, u8}. -/
theorem constant_size_primitive_widths_and_runtime_struct_sum_witness :
    (∀ f ∈ [MoveTypeLayout.U8, MoveTypeLayout.U64, MoveTypeLayout.U8],
      (primitive_width f).isSome) ∧
    compute_constant_size (.Struct (.Runtime [.U8, .U64, .U8])) = some 10 :=
  ⟨by decide, by
    simpa using constant_size_primitive_widths_and_runtime_struct_sum.2.1
      [MoveTypeLayout.U8, MoveTypeLayout.U64, MoveTypeLayout.U8] (by decide)⟩

/-- C4: every layout containing a `Vector` variant at any depth — under
`Native` wrappers, inside struct fields, regardless of the element type —
has no constant serialized size. -/
theorem vector_anywhere_no_constant_size (l : MoveTypeLayout)
    (h : layout_contains_vector l = true) : compute_constant_size l = none :=
  layout_contains_vector_none l h

/-- Witness for C4 at a runtime struct with a vector nested under a
`Native` wrapper. -/
theorem vector_anywhere_no_constant_size_witness :
    layout_contains_vector
      (.Struct (.Runtime [.U8, .Native 7 (.Vector .U64)])) = true ∧
    compute_constant_size
      (.Struct (.Runtime [.U8, .Native 7 (.Vector .U64)])) = none :=
  ⟨by decide, vector_anywhere_no_constant_size _ (by decide)⟩

/-- C5: `constant_serialized_size` charges exactly the single flat fee
`BCS_TO_BYTES_FAILURE` whatever the type argument resolves to, never
returns an error (in particular never a typed abort), and returns the
`None` value on layout-resolution failure — the same observable outcome as
a successfully resolved variable-size type, as the `Option.bind` form of
the returned value shows. -/
theorem constant_serialized_size_flat_fee_never_aborts
    (p : GasParams) (ctx : NativeContext) (budget ty : Nat)
    (hb : p.bcs_to_bytes_failure ≤ budget) :
    native_constant_serialized_size p ctx budget [ty] [] =
      .ok [option_u64 ((ctx.type_to_type_layout ty).bind compute_constant_size)]
        p.bcs_to_bytes_failure ∧
    (ctx.type_to_type_layout ty = none →
      native_constant_serialized_size p ctx budget [ty] [] =
        .ok [option_u64 none] p.bcs_to_bytes_failure) ∧
    (∀ layout, ctx.type_to_type_layout ty = some layout →
      compute_constant_size layout = none →
      native_constant_serialized_size p ctx budget [ty] [] =
        .ok [option_u64 none] p.bcs_to_bytes_failure) := by
  refine ⟨?_, ?_, ?_⟩
  · cases h : ctx.type_to_type_layout ty with
    | none => simp [native_constant_serialized_size, charge, hb, h]
    | some layout =>
      cases hs : compute_constant_size layout <;>
        simp [native_constant_serialized_size, charge, hb, h, hs]
  · intro h
    simp [native_constant_serialized_size, charge, hb, h]
  · intro layout h hs
    simp [native_constant_serialized_size, charge, hb, h, hs]

/-- Witness for C5 at a concrete unresolvable type. -/
theorem constant_serialized_size_flat_fee_never_aborts_witness :
    (5 : Nat) ≤ 10 ∧
    native_constant_serialized_size ⟨5, 3⟩ ctx_unresolvable 10 [0] [] =
      .ok [option_u64 none] 5 :=
  ⟨by decide,
    (constant_serialized_size_flat_fee_never_aborts ⟨5, 3⟩ ctx_unresolvable 10 0
      (by decide)).2.1 rfl⟩

/-- C7: under the arity preconditions (one type argument; one reference
argument for `to_bytes`, no arguments for `constant_serialized_size`),
neither native reaches the panic outcome for any host context, gas budget
or gas parameters: the argument pops succeed and all failures are returned
as `SafeNativeError` values. -/
theorem natives_never_panic_on_well_arity_input
    (p : GasParams) (ctx : NativeContext) (budget ty r : Nat) :
    (native_to_bytes p ctx budget [ty] [.ref r]).isPanicked = false ∧
    (native_constant_serialized_size p ctx budget [ty] []).isPanicked = false := by
  have e1 : [MoveArg.ref r].getLast? = some (MoveArg.ref r) := rfl
  have e2 : [ty].getLast? = some ty := rfl
  constructor
  · simp only [native_to_bytes, e1, e2]
    rcases hA : ctx.type_to_type_layout ty with _ | layout
    · rcases hB : charge budget 0 p.bcs_to_bytes_failure with _ | used <;>
        simp [hB, RunResult.isPanicked]
    · simp only []
      rcases hC : ctx.read_ref r with _ | val
      · simp [hC, RunResult.isPanicked]
      · simp only [hC]
        rcases hD : ctx.simple_serialize val layout with _ | s
        · rcases hB : charge budget 0 p.bcs_to_bytes_failure with _ | used <;>
            simp [hD, hB, RunResult.isPanicked]
        · rcases hE : charge budget 0 (p.bcs_to_bytes_per_byte_serialized * s.length)
            with _ | used <;> simp [hD, hE, RunResult.isPanicked]
  · simp only [native_constant_serialized_size, e2]
    rcases hB : charge budget 0 p.bcs_to_bytes_failure with _ | used
    · simp [RunResult.isPanicked]
    · rcases hA : ctx.type_to_type_layout ty with _ | layout
      · simp [hA, RunResult.isPanicked]
      · rcases hS : compute_constant_size layout with _ | size <;>
          simp [hA, hS, RunResult.isPanicked]

/-- C8: both decorated struct representations — `WithFields` (field names)
and `WithTypes` (struct tag plus named fields) — are rejected by the
analyzer unconditionally, even when every field would have a fixed size. -/
theorem decorated_struct_layouts_not_analyzable :
    (∀ fields, compute_constant_size (.Struct (.WithFields fields)) = none) ∧
    (∀ tag fields, compute_constant_size (.Struct (.WithTypes tag fields)) = none) :=
  ⟨fun _ => rfl, fun _ _ => rfl⟩

/-- C9: for every wrapper tag and inner layout, the analyzer on
`Native(tag, inner)` returns exactly its result on `inner`. -/
theorem native_wrapper_size_transparent (tag : Nat) (inner : MoveTypeLayout) :
    compute_constant_size (.Native tag inner) = compute_constant_size inner := by
  simp [compute_constant_size]

/-- C10: `compute_constant_size` terminates on every finite layout tree:
fuel equal to the tree height along the recursed branches already suffices
for the fuel-indexed variant to finish, with the same result. -/
theorem compute_constant_size_total_within_height_fuel
    (fuel : Nat) (l : MoveTypeLayout) (h : layout_height l ≤ fuel) :
    compute_constant_size_fuel fuel l = some (compute_constant_size l) :=
  fuel_sound fuel l h

/-- Witness for C10 at a nested runtime struct under a `Native` wrapper. -/
theorem compute_constant_size_total_within_height_fuel_witness :
    layout_height (.Native 0 (.Struct (.Runtime [.U8, .Struct (.Runtime [.U64])]))) ≤ 4 ∧
    compute_constant_size_fuel 4
      (.Native 0 (.Struct (.Runtime [.U8, .Struct (.Runtime [.U64])]))) =
        some (some 9) :=
  ⟨by decide, by
    simpa using compute_constant_size_total_within_height_fuel 4
      (.Native 0 (.Struct (.Runtime [.U8, .Struct (.Runtime [.U64])]))) (by decide)⟩

end Bcs

namespace Natives

/-- Helper for C6: every dispatch key produced from a label/group list has
its module component among the labels. -/
theorem key_fst_mem : ∀ (labels : List String) (groups : List (List (String × Nat)))
    (k : String × String),
    k ∈ ((labels.zip groups).flatMap (fun g => g.2.map (fun p => (g.1, p.1, p.2)))).map entry_key →
    k.1 ∈ labels := by
  intro labels
  induction labels with
  | nil => intro groups k h; simp at h
  | cons l rest ih =>
    intro groups k h
    cases groups with
    | nil => simp at h
    | cons g gs =>
      simp only [List.zip_cons_cons, List.flatMap_cons, List.map_append, List.mem_append] at h
      rcases h with h | h
      · simp only [List.mem_map] at h
        obtain ⟨e, he, hke⟩ := h
        obtain ⟨p, _, hpe⟩ := he
        subst hpe; subst hke
        simp [entry_key]
      · exact List.mem_cons_of_mem _ (ih gs k h)

/-- Helper for C6: distinct labels plus per-group distinct function names
give pairwise-distinct (module, function) keys in the flattened table. -/
theorem flat_keys_nodup : ∀ (labels : List String) (groups : List (List (String × Nat))),
    labels.Nodup → (∀ g ∈ groups, (g.map Prod.fst).Nodup) →
    (((labels.zip groups).flatMap (fun g => g.2.map (fun p => (g.1, p.1, p.2)))).map entry_key).Nodup := by
  intro labels
  induction labels with
  | nil => intro groups _ _; simp
  | cons l rest ih =>
    intro groups hnd hg
    cases groups with
    | nil => simp
    | cons g gs =>
      simp only [List.zip_cons_cons, List.flatMap_cons, List.map_append]
      apply List.Nodup.append
      · have h1 : (g.map Prod.fst).Nodup := hg g (by simp)
        have heq : ((g.map (fun p => (l, p.1, p.2))).map entry_key) =
            (g.map Prod.fst).map (fun n => (l, n)) := by
          simp [entry_key, Function.comp]
        rw [heq]
        exact h1.map (fun a b hab => by simpa using hab)
      · exact ih gs (List.Nodup.of_cons hnd) (fun g2 hg2 => hg g2 (by simp [hg2]))
      · intro k hk1 hk2
        have hl : k.1 = l := by
          simp only [List.mem_map] at hk1
          obtain ⟨e, he, hke⟩ := hk1
          obtain ⟨p, _, hpe⟩ := he
          subst hpe; subst hke
          simp [entry_key]
        have hr : k.1 ∈ rest := key_fst_mem rest gs k hk2
        rw [hl] at hr
        exact (List.nodup_cons.mp hnd).1 hr

/-- C6: the module labels of the registration calls in `all_natives` are
pairwise distinct, so entries from different registration calls always get
different (module, function) keys, and — provided each group's function
names are distinct — no two entries of the whole table share a key. -/
theorem all_natives_dispatch_keys_unique :
    module_labels.Nodup ∧
    ∀ groups : List (List (String × Nat)),
      (∀ g ∈ groups, (g.map Prod.fst).Nodup) →
      ((all_natives groups).map entry_key).Nodup := by
  constructor
  · decide
  · intro groups hg
    exact flat_keys_nodup module_labels groups (by decide) hg

/-- Witness for C6 at two concrete groups. -/
theorem all_natives_dispatch_keys_unique_witness :
    (∀ g ∈ [[("to_bytes", 1), ("constant_serialized_size", 2)], [("create_signer", 3)]],
      (List.map Prod.fst g).Nodup) ∧
    ((all_natives [[("to_bytes", 1), ("constant_serialized_size", 2)],
        [("create_signer", 3)]]).map entry_key).Nodup :=
  ⟨by decide, all_natives_dispatch_keys_unique.2 _ (by decide)⟩

end Natives
